import Mathlib

/-!
The go-testcov package: coverage analyzer, process runner and orchestrator.

A shallow embedding of `pkg.go` (package `go_scov`).

* Go strings are modelled by Lean `String`s read as rune sequences; the only
  characters the program inspects are the ASCII ones `'\n'`, `' '` and `'0'`.
* The operating system is modelled by an explicit `World` that is threaded
  through the effectful functions: readable files, the two output streams, a
  log of the processes that were spawned and a log of the files that were read.
* A Go panic is modelled by `Except.error`.
-/

namespace GoScov

/-! ## Library functions used by the source -/

/-- Loop of `strings.FieldsFunc`: `start` is the field currently being scanned
(`none` stands for a negative `start`), `spans` are the fields recorded so far.
A rune satisfying `f` closes the open field, a rune not satisfying `f` opens a
field or extends it, and an open field is recorded at the end of the input. -/
def fieldsLoop (f : Char → Bool) : List Char → Option (List Char) → List (List Char) →
    List (List Char)
  | [], none, spans => spans
  | [], some field, spans => spans ++ [field]
  | c :: rest, none, spans =>
    if f c then fieldsLoop f rest none spans
    else fieldsLoop f rest (some [c]) spans
  | c :: rest, some field, spans =>
    if f c then fieldsLoop f rest none (spans ++ [field])
    else fieldsLoop f rest (some (field ++ [c])) spans

/-- Go `strings.FieldsFunc(s, f)`: the maximal runs of runes not satisfying `f`. -/
def FieldsFunc (s : String) (f : Char → Bool) : List String :=
  (fieldsLoop f s.data none []).map String.mk

/-- Go `strings.HasSuffix(s, suffix)`:
`len(s) >= len(suffix) && s[len(s)-len(suffix):] == suffix`. -/
def HasSuffix (s suffix : String) : Bool :=
  decide (s.length ≥ suffix.length) &&
    decide (s.data.drop (s.length - suffix.length) = suffix.data)

/-- Go `strings.Join(elems, sep)`. -/
def Join : List String → String → String
  | [], _ => ""
  | [e], _ => e
  | e :: es, sep => e ++ sep ++ Join es sep

/-! ## Pure helpers of `pkg.go` -/

/-- Source `splitWithoutEmpty`: `strings.FieldsFunc` with the test `c == delimiter`. -/
def splitWithoutEmpty (string : String) (delimiter : Char) : List String :=
  FieldsFunc string (fun c => c == delimiter)

/-- Loop of the source `filter`: append `s` to `filtered` when `test s` holds. -/
def filterLoop (test : String → Bool) : List String → List String → List String
  | [], filtered => filtered
  | s :: ss, filtered =>
    if test s then filterLoop test ss (filtered ++ [s]) else filterLoop test ss filtered

/-- Source `filter`: starts from the empty slice and runs the loop over `ss`. -/
def filter (ss : List String) (test : String → Bool) : List String :=
  filterLoop test ss []

/-! ## The world -/

/-- What `ioutil.ReadFile` gives for each path, the text written so far to the
two standard streams, the commands run so far and the paths read so far. -/
structure World where
  files : String → Except String String
  stdout : String
  stderr : String
  spawned : List (String × List String)
  reads : List String

/-- Source `check`: a non-nil error panics. -/
def check (e : Option String) : Except String Unit :=
  match e with
  | some err => .error err
  | none => .ok ()

/-- Go `ioutil.ReadFile(path)`: the data and the error (`none` is nil), and the
world in which the read is logged. -/
def ReadFile (path : String) (w : World) : (String × Option String) × World :=
  let w1 : World := { w with reads := w.reads ++ [path] }
  match w.files path with
  | .ok data => ((data, none), w1)
  | .error err => (("", some err), w1)

/-- Go slice expression `lines[low:]`: it panics when `low` exceeds the length. -/
def sliceFrom (lines : List String) (low : Nat) : Except String (List String) :=
  if low ≤ lines.length then .ok (lines.drop low) else .error "slice bounds out of range"

/-- Source `Uncovered`: the result (or the panic) and the world after the read. -/
def Uncovered (path : String) (w : World) : Except String (List String) × World :=
  let ((data, err), w1) := ReadFile path w
  match check err with
  | .error e => (.error e, w1)
  | .ok () =>
    let lines := splitWithoutEmpty data '\n'
    if lines.length = 0 then (.ok [], w1)
    else
      match sliceFrom lines 1 with
      | .error e => (.error e, w1)
      | .ok lines =>
        let lines := filter lines (fun line => !(HasSuffix line " 0"))
        (.ok lines, w1)

/-! ## Process runner -/

/-- Go `syscall.WaitStatus`, reduced to the value its `ExitStatus()` reports. -/
structure WaitStatus where
  status : Int
deriving DecidableEq, Repr

/-- Go `ws.ExitStatus()`. -/
def ExitStatus (ws : WaitStatus) : Int := ws.status

/-- How the external process ended: it could not be resolved or started, or it
ran and terminated with a wait status. -/
inductive ProcessOutcome
  | notStarted (err : String)
  | exited (ws : WaitStatus)
deriving DecidableEq, Repr

/-- What running an external command does: how it ended, the files it leaves
behind, and the text it wrote to its standard output and standard error. -/
structure ProcessRun where
  outcome : ProcessOutcome
  files : String → Except String String
  out : String
  err : String

/-- The environment: the behaviour of every command line on every file system. -/
abbrev System := String → List String → (String → Except String String) → ProcessRun

/-- What `cmd.Run()` hands back: `success` is a nil error with `cmd.ProcessState`
set, `exitError` is an `*exec.ExitError` carrying the wait status, `otherError`
is any other error. -/
inductive RunResult
  | success (state : WaitStatus)
  | exitError (state : WaitStatus)
  | otherError (err : String)
deriving DecidableEq, Repr

/-- Go `(*exec.Cmd).Run`: a start failure is returned as it is; after the process
ended the error is nil when the exit status is `0` and an `*exec.ExitError`
otherwise. -/
def cmdRun : ProcessOutcome → RunResult
  | .notStarted err => .otherError err
  | .exited ws => if ExitStatus ws = 0 then .success ws else .exitError ws

/-- Source `runCommand`: the process's output goes to this process's own
streams (`cmd.Stdout = os.Stdout`, `cmd.Stderr = os.Stderr`), and the exit code
is read off the result of `cmd.Run()`. -/
def runCommand (sys : System) (name : String) (argv : List String) (w : World) : Int × World :=
  let run := sys name argv w.files
  let w1 : World :=
    { w with
      files := run.files
      stdout := w.stdout ++ run.out
      stderr := w.stderr ++ run.err
      spawned := w.spawned ++ [(name, argv)] }
  match cmdRun run.outcome with
  | .exitError ws => (ExitStatus ws, w1)
  | .otherError _ => (1, w1)
  | .success ws => (ExitStatus ws, w1)

/-! ## Orchestrator -/

/-- Go `fmt.Fprintln(os.Stderr, s)`. -/
def FprintlnStderr (s : String) (w : World) : World :=
  { w with stderr := w.stderr ++ s ++ "\n" }

/-- Source `CovTest`: the exit code (or the panic) and the world afterwards. -/
def CovTest (sys : System) (argv : List String) (w : World) : Except String Int × World :=
  let path := "coverage.out"
  let argv := ["test"] ++ argv
  let argv := argv ++ ["-cover", "-coverprofile=" ++ path]
  let (exitCode, w1) := runCommand sys "go" argv w
  if exitCode = 0 then
    match Uncovered path w1 with
    | (.error err, w2) => (.error err, w2)
    | (.ok uncovered, w2) =>
      if uncovered.length ≠ 0 then
        let w3 := FprintlnStderr "Uncovered lines found:" w2
        let w4 := FprintlnStderr (Join uncovered "\n") w3
        (.ok 1, w4)
      else (.ok exitCode, w2)
  else (.ok exitCode, w1)

/-! ## Concrete worlds and systems -/

/-- A world whose every path holds `content` and whose streams and logs are empty. -/
def worldWith (content : String) : World :=
  { files := fun _ => .ok content, stdout := "", stderr := "", spawned := [], reads := [] }

/-- A world without any readable file. -/
def emptyWorld : World :=
  { files := fun _ => .error "no such file", stdout := "", stderr := "", spawned := [],
    reads := [] }

/-- A fake `go` that writes `content` to every path it is asked about, prints
nothing, and exits with `code`. -/
def fakeGo (content : String) (code : Int) : System :=
  fun _ _ _ =>
    { outcome := .exited ⟨code⟩, files := fun _ => .ok content, out := "", err := "" }

/-- A fake `go` that leaves the files as they are, prints nothing, and exits
with `code`. -/
def silentGo (code : Int) : System :=
  fun _ _ files => { outcome := .exited ⟨code⟩, files := files, out := "", err := "" }

/-- A system in which no command can be started. -/
def noSuchCommand : System :=
  fun _ _ files =>
    { outcome := .notStarted "executable file not found in $PATH", files := files,
      out := "", err := "" }

/-! ## Specification-side notions -/

/-- The non-empty lines of a content, in the words of the specification: split
the text on newline characters and discard the empty segments. -/
def nonEmptyLines (content : String) : List String :=
  ((content.data.splitOn '\n').map String.mk).filter (fun l => l ≠ "")

/-- The line ends with the exact substring `" 0"`. -/
def endsWithSpaceZero (l : String) : Bool :=
  decide (" 0".data <:+ l.data)

/-- The trailing whitespace-delimited token of a line, in the words of the
specification: the last of the fields separated by runs of whitespace, if any. -/
def trailingToken (l : String) : Option String :=
  (FieldsFunc l Char.isWhitespace).getLast?

/-- The number of lines of a newline-terminated text: its newline characters. -/
def lineCount (text : String) : Nat :=
  text.data.count '\n'

/-- Splitting at every occurrence of the delimiter and then removing the empty
segments, in the words of the specification. -/
def splitThenRemoveEmpty (s : String) (d : Char) : List String :=
  ((s.data.splitOn d).map String.mk).filter (fun seg => seg ≠ "")

/-! ## Lemmas on the library functions and the pure helpers -/

theorem fieldsLoop_spans (f : Char → Bool) (s : List Char) (start : Option (List Char))
    (spans : List (List Char)) :
    fieldsLoop f s start spans = spans ++ fieldsLoop f s start [] := by
  induction s generalizing start spans with
  | nil => cases start <;> simp [fieldsLoop]
  | cons c rest ih =>
    cases start with
    | none =>
      by_cases hc : f c = true
      · simp only [fieldsLoop, hc, if_true]; exact ih none spans
      · simp only [fieldsLoop, hc]; exact ih (some [c]) spans
    | some field =>
      by_cases hc : f c = true
      · simp only [fieldsLoop, hc, if_true]
        rw [ih none (spans ++ [field]), ih none ([] ++ [field])]
        simp
      · simp only [fieldsLoop, hc]; exact ih (some (field ++ [c])) spans

/-- The loop of `FieldsFunc` computes the non-empty segments of the split at the
runes satisfying `f`; with an open field, that field is glued to the first segment. -/
theorem fieldsLoop_eq_splitOnP (f : Char → Bool) (s : List Char) :
    fieldsLoop f s none [] = (s.splitOnP f).filter (fun seg => seg ≠ []) ∧
    ∀ field : List Char, field ≠ [] →
      fieldsLoop f s (some field) []
        = ((s.splitOnP f).modifyHead (fun seg => field ++ seg)).filter (fun seg => seg ≠ []) := by
  induction s with
  | nil =>
    refine ⟨by simp [fieldsLoop, List.splitOnP_nil], ?_⟩
    intro field hfield
    simp [fieldsLoop, List.splitOnP_nil, hfield]
  | cons c rest ih =>
    obtain ⟨ihn, ihs⟩ := ih
    by_cases hc : f c = true
    · refine ⟨?_, ?_⟩
      · simp only [fieldsLoop, hc, if_true, List.splitOnP_cons]
        rw [ihn]; simp
      · intro field hfield
        simp only [fieldsLoop, hc, if_true, List.splitOnP_cons, List.modifyHead_cons]
        rw [fieldsLoop_spans, ihn]
        simp [hfield]
    · refine ⟨?_, ?_⟩
      · simp only [fieldsLoop, hc, List.splitOnP_cons]
        rw [ihs [c] (by simp)]
        simp
      · intro field hfield
        simp only [fieldsLoop, hc, List.splitOnP_cons]
        rw [ihs (field ++ [c]) (by simp)]
        simp [List.modifyHead_modifyHead, Function.comp_def]

theorem filterLoop_eq (test : String → Bool) (ss filtered : List String) :
    filterLoop test ss filtered = filtered ++ ss.filter test := by
  induction ss generalizing filtered with
  | nil => simp [filterLoop]
  | cons s ss ih =>
    by_cases hs : test s = true
    · simp [filterLoop, hs, ih]
    · simp [filterLoop, hs, ih]

/-- The source `filter` is the list filter. -/
theorem filter_eq (ss : List String) (test : String → Bool) : filter ss test = ss.filter test := by
  simp [filter, filterLoop_eq]

/-- `strings.HasSuffix` decides the suffix relation on the rune sequences. -/
theorem HasSuffix_iff (s suffix : String) : HasSuffix s suffix = true ↔ suffix.data <:+ s.data := by
  unfold HasSuffix
  simp only [Bool.and_eq_true, decide_eq_true_eq, String.length]
  constructor
  · rintro ⟨_, h⟩
    exact List.suffix_iff_eq_drop.mpr h.symm
  · intro h
    exact ⟨h.length_le, (List.suffix_iff_eq_drop.mp h).symm⟩

/-- The source `splitWithoutEmpty` on `'\n'` yields the non-empty lines. -/
theorem splitWithoutEmpty_eq_nonEmptyLines (content : String) :
    splitWithoutEmpty content '\n' = nonEmptyLines content := by
  unfold splitWithoutEmpty FieldsFunc nonEmptyLines List.splitOn
  rw [(fieldsLoop_eq_splitOnP _ _).1, List.filter_map]
  congr 1
  apply List.filter_congr
  intro seg _
  simp [Function.comp_def, String.ext_iff]

/-- What `Uncovered` does on a readable file, in terms of the specification-side
notions: the read is logged and the result is the filtered tail of the non-empty lines. -/
theorem Uncovered_readable (path : String) (w : World) (content : String)
    (hread : w.files path = .ok content) :
    Uncovered path w
      = (.ok (((nonEmptyLines content).tail).filter (fun l => !(endsWithSpaceZero l))),
         { w with reads := w.reads ++ [path] }) := by
  have hsuf : (fun line : String => !(HasSuffix line " 0")) = fun l => !(endsWithSpaceZero l) := by
    funext l
    unfold endsWithSpaceZero
    by_cases h : " 0".data <:+ l.data
    · simp [h, (HasSuffix_iff l " 0").mpr h]
    · have h2 : HasSuffix l " 0" = false := by
        cases hb : HasSuffix l " 0" with
        | false => rfl
        | true => exact absurd ((HasSuffix_iff l " 0").mp hb) h
      simp [h, h2]
  unfold Uncovered ReadFile
  simp only [hread, check]
  rw [splitWithoutEmpty_eq_nonEmptyLines]
  by_cases hlen : (nonEmptyLines content).length = 0
  · have hnil : nonEmptyLines content = [] := List.length_eq_zero.mp hlen
    simp [hnil]
  · have hpos : 1 ≤ (nonEmptyLines content).length := Nat.one_le_iff_ne_zero.mpr hlen
    simp [hlen, sliceFrom, hpos, filter_eq, hsuf]

theorem Uncovered_unreadable (path : String) (w : World) (err : String)
    (hread : w.files path = .error err) :
    Uncovered path w = (.error err, { w with reads := w.reads ++ [path] }) := by
  unfold Uncovered ReadFile
  simp only [hread, check]

/-- The only effect of `Uncovered` on the world is the logged read. -/
theorem Uncovered_world (path : String) (w : World) :
    (Uncovered path w).2 = { w with reads := w.reads ++ [path] } := by
  cases hf : w.files path with
  | error err => rw [Uncovered_unreadable path w err hf]
  | ok content => rw [Uncovered_readable path w content hf]

/-- A content made only of newline characters has no non-empty line. -/
theorem nonEmptyLines_of_all_newlines (content : String)
    (h : ∀ c ∈ content.data, c = '\n') : nonEmptyLines content = [] := by
  have key : ∀ s : List Char, (∀ c ∈ s, c = '\n') →
      fieldsLoop (fun c => c == '\n') s none [] = [] := by
    intro s
    induction s with
    | nil => intro _; rfl
    | cons c rest ih =>
      intro hs
      have hc : c = '\n' := hs c (List.mem_cons_self c rest)
      simp only [fieldsLoop, hc, beq_self_eq_true, if_true]
      exact ih (fun d hd => hs d (List.mem_cons_of_mem c hd))
  rw [← splitWithoutEmpty_eq_nonEmptyLines]
  unfold splitWithoutEmpty FieldsFunc
  rw [key content.data h]
  rfl

/-- A non-empty newline-free text is its own single non-empty line. -/
theorem nonEmptyLines_single (h : String) (hne : h ≠ "") (hnl : '\n' ∉ h.data) :
    nonEmptyLines h = [h] := by
  unfold nonEmptyLines List.splitOn
  rw [List.splitOnP_eq_single]
  · simp [hne]
  · intro x hx hp
    have : x = '\n' := by simpa using hp
    exact hnl (this ▸ hx)

/-- A non-empty newline-free first line followed by a newline is the first of the
non-empty lines, and the others are those of the rest. -/
theorem nonEmptyLines_header (h rest : String) (hne : h ≠ "") (hnl : '\n' ∉ h.data) :
    nonEmptyLines (h ++ "\n" ++ rest) = h :: nonEmptyLines rest := by
  have hdata : (h ++ "\n" ++ rest).data = h.data ++ '\n' :: rest.data := by
    simp [String.data_append]
  unfold nonEmptyLines List.splitOn
  rw [hdata, List.splitOnP_first]
  · simp [hne]
  · intro x hx hp
    have : x = '\n' := by simpa using hp
    exact hnl (this ▸ hx)
  · simp

/-- The world after `runCommand`: the files the process leaves, its output
appended to the two streams, one more entry in the log of spawned commands, and
the log of reads untouched. -/
theorem runCommand_world (sys : System) (name : String) (argv : List String) (w : World) :
    (runCommand sys name argv w).2
      = { w with
          files := (sys name argv w.files).files
          stdout := w.stdout ++ (sys name argv w.files).out
          stderr := w.stderr ++ (sys name argv w.files).err
          spawned := w.spawned ++ [(name, argv)] } := by
  unfold runCommand
  cases hrun : cmdRun (sys name argv w.files).outcome <;> simp [hrun]

/-- The exit code `runCommand` reports, by the way the process ended. -/
theorem runCommand_code (sys : System) (name : String) (argv : List String) (w : World) :
    (runCommand sys name argv w).1
      = match (sys name argv w.files).outcome with
        | .notStarted _ => 1
        | .exited ws => ExitStatus ws := by
  unfold runCommand
  cases hout : (sys name argv w.files).outcome with
  | notStarted err => simp [hout, cmdRun]
  | exited ws =>
    by_cases hz : ExitStatus ws = 0
    · simp [hout, cmdRun, hz]
    · simp [hout, cmdRun, hz]

/-- `CovTest` when the runner fails: its code, and the world the runner left. -/
theorem CovTest_runner_failed (sys : System) (argv : List String) (w : World)
    (hc : (runCommand sys "go" (["test"] ++ argv ++ ["-cover", "-coverprofile=coverage.out"]) w).1
      ≠ 0) :
    CovTest sys argv w
      = (.ok (runCommand sys "go" (["test"] ++ argv ++ ["-cover", "-coverprofile=coverage.out"]) w).1,
         (runCommand sys "go" (["test"] ++ argv ++ ["-cover", "-coverprofile=coverage.out"]) w).2) := by
  have hflag : "-coverprofile=" ++ "coverage.out" = "-coverprofile=coverage.out" := by decide
  unfold CovTest
  simp only [hflag]
  simp only [List.cons_append, List.nil_append] at hc ⊢
  simp [hc]

/-- `CovTest` when the runner succeeds: what it does with the result of `Uncovered`. -/
theorem CovTest_runner_ok (sys : System) (argv : List String) (w : World)
    (hc : (runCommand sys "go" (["test"] ++ argv ++ ["-cover", "-coverprofile=coverage.out"]) w).1
      = 0) :
    CovTest sys argv w
      = match Uncovered "coverage.out"
          (runCommand sys "go" (["test"] ++ argv ++ ["-cover", "-coverprofile=coverage.out"]) w).2 with
        | (.error err, w2) => (.error err, w2)
        | (.ok uncovered, w2) =>
          if uncovered.length ≠ 0 then
            (.ok 1, FprintlnStderr (Join uncovered "\n") (FprintlnStderr "Uncovered lines found:" w2))
          else (.ok 0, w2) := by
  have hflag : "-coverprofile=" ++ "coverage.out" = "-coverprofile=coverage.out" := by decide
  unfold CovTest
  simp only [hflag]
  simp only [List.cons_append, List.nil_append] at hc ⊢
  simp [hc]

/-! ## Claims on `Uncovered` -/

/-- C1 (evaluation of the code at the failing input): on the report
`"mode: set\nfoo/pkg.go:1.2,3.4 1 0\n"` the source `Uncovered` returns the empty
sequence, so the record ending in `" 0"` is dropped instead of included; and on
every readable content no line ending in `" 0"` is ever part of the result. -/
theorem C1_zero_record_dropped :
    (Uncovered "coverage.out" (worldWith "mode: set\nfoo/pkg.go:1.2,3.4 1 0\n")).1 = .ok [] ∧
    (∀ (path : String) (w : World) (content : String) (r : List String) (l : String),
      w.files path = .ok content → (Uncovered path w).1 = .ok r → l ∈ r →
      endsWithSpaceZero l = false) := by
  refine ⟨rfl, ?_⟩
  intro path w content r l hread hres hl
  rw [Uncovered_readable path w content hread] at hres
  have hr : r = ((nonEmptyLines content).tail).filter (fun l => !(endsWithSpaceZero l)) :=
    (Except.ok.inj hres).symm
  rw [hr] at hl
  simpa using (List.mem_filter.mp hl).2

/-- C2 (evaluation of the code at the failing inputs): on the reports whose only
record ends in `" 1"` or in `" 10"` the source `Uncovered` returns that record
instead of the empty sequence; and on every readable content every non-empty line
after the first that does not end in `" 0"` is part of the result. -/
theorem C2_nonzero_record_kept :
    (Uncovered "coverage.out" (worldWith "mode: set\nfoo/pkg.go:1.2,3.4 1 1\n")).1
        = .ok ["foo/pkg.go:1.2,3.4 1 1"] ∧
    (Uncovered "coverage.out" (worldWith "mode: set\nfoo/pkg.go:1.2,3.4 1 10\n")).1
        = .ok ["foo/pkg.go:1.2,3.4 1 10"] ∧
    (∀ (path : String) (w : World) (content : String) (l : String),
      w.files path = .ok content → l ∈ (nonEmptyLines content).tail →
      endsWithSpaceZero l = false →
      ∃ r, (Uncovered path w).1 = .ok r ∧ l ∈ r) := by
  refine ⟨rfl, rfl, ?_⟩
  intro path w content l hread hl hsuf
  refine ⟨_, by rw [Uncovered_readable path w content hread], ?_⟩
  exact List.mem_filter.mpr ⟨hl, by simp [hsuf]⟩

/-- C3: for every readable file content, `Uncovered` returns exactly the non-empty
lines after the first one that do not end with the exact substring `" 0"`, i.e.
`filter (fun l => not (l ends with " 0")) (tail (nonEmptyLines content))`. -/
theorem C3_Uncovered_eq_filter_tail (path : String) (w : World) (content : String)
    (hread : w.files path = .ok content) :
    (Uncovered path w).1
      = .ok (((nonEmptyLines content).tail).filter (fun l => !(endsWithSpaceZero l))) := by
  rw [Uncovered_readable path w content hread]

theorem C3_Uncovered_eq_filter_tail_witness :
    (worldWith "mode: set\na.go:1.1,2.2 1 0\nb.go:1.1,2.2 1 7\n").files "coverage.out"
        = .ok "mode: set\na.go:1.1,2.2 1 0\nb.go:1.1,2.2 1 7\n" ∧
    (Uncovered "coverage.out" (worldWith "mode: set\na.go:1.1,2.2 1 0\nb.go:1.1,2.2 1 7\n")).1
      = .ok (((nonEmptyLines "mode: set\na.go:1.1,2.2 1 0\nb.go:1.1,2.2 1 7\n").tail).filter
          (fun l => !(endsWithSpaceZero l))) :=
  ⟨rfl, C3_Uncovered_eq_filter_tail "coverage.out"
    (worldWith "mode: set\na.go:1.1,2.2 1 0\nb.go:1.1,2.2 1 7\n")
    "mode: set\na.go:1.1,2.2 1 0\nb.go:1.1,2.2 1 7\n" rfl⟩

/-- C9: for a file whose content is the empty string, and more generally for a
content made only of newline characters or any content without a non-empty line,
`Uncovered` returns the empty sequence. -/
theorem C9_Uncovered_no_lines (path : String) (w : World) (content : String)
    (hread : w.files path = .ok content) :
    (content = "" → (Uncovered path w).1 = .ok []) ∧
    ((∀ c ∈ content.data, c = '\n') → (Uncovered path w).1 = .ok []) ∧
    (nonEmptyLines content = [] → (Uncovered path w).1 = .ok []) := by
  have hgen : nonEmptyLines content = [] → (Uncovered path w).1 = .ok [] := by
    intro hnil
    rw [Uncovered_readable path w content hread, hnil]
    rfl
  refine ⟨?_, ?_, hgen⟩
  · intro hempty
    apply hgen
    apply nonEmptyLines_of_all_newlines
    simp [hempty]
  · intro hall
    exact hgen (nonEmptyLines_of_all_newlines content hall)

theorem C9_Uncovered_no_lines_witness :
    (Uncovered "coverage.out" (worldWith "")).1 = .ok [] ∧
    (Uncovered "coverage.out" (worldWith "\n\n\n")).1 = .ok [] :=
  ⟨(C9_Uncovered_no_lines "coverage.out" (worldWith "") "" rfl).1 rfl,
   (C9_Uncovered_no_lines "coverage.out" (worldWith "\n\n\n") "\n\n\n" rfl).2.1 (by decide)⟩

/-- C10: the first non-empty line never contributes to the result of `Uncovered`:
the result is a sublist of the non-empty lines with the first one removed; a
content with a single non-empty line yields the empty sequence whatever that line
is; and for a non-empty newline-free `h` the result on `h ++ "\n" ++ rest` is the
same for every such `h`. -/
theorem C10_header_discarded :
    (∀ (path : String) (w : World) (content : String), w.files path = .ok content →
      ∃ r, (Uncovered path w).1 = .ok r ∧ r.Sublist (nonEmptyLines content).tail) ∧
    (∀ (path : String) (w : World) (content h : String), w.files path = .ok content →
      nonEmptyLines content = [h] → (Uncovered path w).1 = .ok []) ∧
    (∀ (path : String) (w : World) (h : String), h ≠ "" → '\n' ∉ h.data →
      w.files path = .ok h → (Uncovered path w).1 = .ok []) ∧
    (∀ (path : String) (w w' : World) (h h' rest : String),
      h ≠ "" → '\n' ∉ h.data → h' ≠ "" → '\n' ∉ h'.data →
      w.files path = .ok (h ++ "\n" ++ rest) → w'.files path = .ok (h' ++ "\n" ++ rest) →
      (Uncovered path w).1 = (Uncovered path w').1) := by
  refine ⟨?_, ?_, ?_, ?_⟩
  · intro path w content hread
    refine ⟨_, by rw [Uncovered_readable path w content hread], ?_⟩
    exact List.filter_sublist _
  · intro path w content h hread hone
    rw [Uncovered_readable path w content hread, hone]
    rfl
  · intro path w h hne hnl hread
    rw [Uncovered_readable path w h hread, nonEmptyLines_single h hne hnl]
    rfl
  · intro path w w' h h' rest hne hnl hne' hnl' hread hread'
    rw [Uncovered_readable path w _ hread, Uncovered_readable path w' _ hread',
      nonEmptyLines_header h rest hne hnl, nonEmptyLines_header h' rest hne' hnl']
    rfl

theorem C10_header_discarded_witness :
    (Uncovered "coverage.out" (worldWith "a.go:1.1,2.2 1 1")).1 = .ok [] ∧
    (Uncovered "coverage.out" (worldWith ("mode: set" ++ "\n" ++ "a.go:1.1,2.2 1 1\n"))).1
      = (Uncovered "coverage.out" (worldWith ("b.go:3.3,4.4 1 1" ++ "\n" ++ "a.go:1.1,2.2 1 1\n"))).1 :=
  ⟨C10_header_discarded.2.2.1 "coverage.out" (worldWith "a.go:1.1,2.2 1 1") "a.go:1.1,2.2 1 1"
      (by decide) (by decide) rfl,
   C10_header_discarded.2.2.2 "coverage.out" (worldWith ("mode: set" ++ "\n" ++ "a.go:1.1,2.2 1 1\n"))
      (worldWith ("b.go:3.3,4.4 1 1" ++ "\n" ++ "a.go:1.1,2.2 1 1\n"))
      "mode: set" "b.go:3.3,4.4 1 1" "a.go:1.1,2.2 1 1\n"
      (by decide) (by decide) (by decide) (by decide) rfl rfl⟩

/-! ## Claims on `runCommand` -/

/-- C8: `runCommand` always returns a number: `0` when the process exits cleanly,
the process's exit status when it ran and failed, and `1` when the command could
not be resolved or started; it returns `0` exactly when the process was started
and exited with status `0`. -/
theorem C8_runCommand_exit_code (sys : System) (name : String) (argv : List String) (w : World) :
    (∀ ws, (sys name argv w.files).outcome = .exited ws → ExitStatus ws = 0 →
      (runCommand sys name argv w).1 = 0) ∧
    (∀ ws, (sys name argv w.files).outcome = .exited ws → ExitStatus ws ≠ 0 →
      (runCommand sys name argv w).1 = ExitStatus ws) ∧
    (∀ err, (sys name argv w.files).outcome = .notStarted err →
      (runCommand sys name argv w).1 = 1) ∧
    ((runCommand sys name argv w).1 = 0 ↔
      ∃ ws, (sys name argv w.files).outcome = .exited ws ∧ ExitStatus ws = 0) := by
  rw [runCommand_code]
  refine ⟨?_, ?_, ?_, ?_⟩
  · intro ws hout hz
    rw [hout]; exact hz
  · intro ws hout _
    rw [hout]
  · intro err hout
    rw [hout]
  · cases hout : (sys name argv w.files).outcome with
    | notStarted err => simp
    | exited ws => simp

theorem C8_runCommand_exit_code_witness :
    (runCommand (fakeGo "" 0) "echo" ["123"] emptyWorld).1 = 0 ∧
    (runCommand (fakeGo "" 2) "ls" ["--nope"] emptyWorld).1 = 2 ∧
    (runCommand noSuchCommand "nope" [] emptyWorld).1 = 1 :=
  ⟨(C8_runCommand_exit_code (fakeGo "" 0) "echo" ["123"] emptyWorld).1 ⟨0⟩ rfl rfl,
   (C8_runCommand_exit_code (fakeGo "" 2) "ls" ["--nope"] emptyWorld).2.1 ⟨2⟩ rfl (by decide),
   (C8_runCommand_exit_code noSuchCommand "nope" [] emptyWorld).2.2.1
     "executable file not found in $PATH" rfl⟩

/-! ## Claims on `CovTest` -/

/-- C4: when the runner exits with a code `c ≠ 0`, `CovTest` returns exactly `c`
and leaves the world as the runner left it: no file is read (so `Uncovered` is
not invoked) and nothing but the runner's own output reaches the two streams,
whatever the files are. -/
theorem C4_runner_failure_propagated (sys : System) (argv : List String) (w : World) (c : Int)
    (hrun : (runCommand sys "go"
      (["test"] ++ argv ++ ["-cover", "-coverprofile=coverage.out"]) w).1 = c)
    (hc : c ≠ 0) :
    (CovTest sys argv w).1 = .ok c ∧
    (CovTest sys argv w).2
      = (runCommand sys "go" (["test"] ++ argv ++ ["-cover", "-coverprofile=coverage.out"]) w).2 ∧
    (CovTest sys argv w).2.reads = w.reads ∧
    (CovTest sys argv w).2.stderr
      = w.stderr
        ++ (sys "go" (["test"] ++ argv ++ ["-cover", "-coverprofile=coverage.out"]) w.files).err ∧
    (CovTest sys argv w).2.stdout
      = w.stdout
        ++ (sys "go" (["test"] ++ argv ++ ["-cover", "-coverprofile=coverage.out"]) w.files).out := by
  have hne : (runCommand sys "go"
      (["test"] ++ argv ++ ["-cover", "-coverprofile=coverage.out"]) w).1 ≠ 0 := by
    rw [hrun]; exact hc
  rw [CovTest_runner_failed sys argv w hne, runCommand_world]
  exact ⟨by rw [hrun], rfl, rfl, rfl, rfl⟩

theorem C4_runner_failure_propagated_witness :
    (CovTest (fakeGo "" 15) ["hello", "world"] emptyWorld).1 = .ok 15 ∧
    (CovTest (fakeGo "" 15) ["hello", "world"] emptyWorld).2.reads = [] ∧
    (CovTest (fakeGo "" 15) ["hello", "world"] emptyWorld).2.stderr = "" :=
  have h := C4_runner_failure_propagated (fakeGo "" 15) ["hello", "world"] emptyWorld 15 rfl
    (by decide)
  ⟨h.1, h.2.2.1, h.2.2.2.1⟩

/-- The recursion of `strings.Join` yields the library's `String.intercalate`. -/
theorem Join_eq_intercalate (u : List String) (sep : String) :
    Join u sep = String.intercalate sep u := by
  have hgo : ∀ (es : List String) (e acc : String),
      String.intercalate.go acc sep (e :: es) = acc ++ sep ++ Join (e :: es) sep := by
    intro es
    induction es with
    | nil => intro e acc; rfl
    | cons e2 es ih =>
      intro e acc
      show String.intercalate.go (acc ++ sep ++ e) sep (e2 :: es) = _
      rw [ih e2 (acc ++ sep ++ e)]
      simp only [Join, String.append_assoc]
  cases u with
  | nil => rfl
  | cons e es =>
    cases es with
    | nil => rfl
    | cons e2 es =>
      show e ++ sep ++ Join (e2 :: es) sep = String.intercalate.go e sep (e2 :: es)
      rw [hgo es e2 e]

/-- Joining with newlines and closing with a newline puts every element on a
line of its own, in order. -/
theorem Join_newline_eq_join (u : List String) (hne : u ≠ []) :
    Join u "\n" ++ "\n" = String.join (u.map (fun l => l ++ "\n")) := by
  have hfold : ∀ (ls : List String) (acc : String),
      List.foldl (fun r s => r ++ s) acc ls = acc ++ List.foldl (fun r s => r ++ s) "" ls := by
    intro ls
    induction ls with
    | nil => intro acc; apply String.ext; simp [String.data_append]
    | cons l ls ih =>
      intro acc
      simp only [List.foldl_cons]
      rw [ih (acc ++ l), ih ("" ++ l)]
      apply String.ext
      simp [String.data_append]
  have hcons : ∀ (l : String) (ls : List String),
      String.join (l :: ls) = l ++ String.join ls := by
    intro l ls
    unfold String.join
    simp only [List.foldl_cons]
    rw [hfold ls ("" ++ l)]
    apply String.ext
    simp [String.data_append]
  induction u with
  | nil => exact absurd rfl hne
  | cons e es ih =>
    cases es with
    | nil =>
      simp only [Join, List.map_cons, List.map_nil]
      rw [hcons]
      apply String.ext
      simp [String.data_append, String.join]
    | cons e2 es2 =>
      have ih2 := ih (by simp)
      simp only [List.map_cons] at ih2 ⊢
      rw [hcons, ← ih2]
      simp only [Join, String.append_assoc]

/-- C5: when the runner returns `0` and `Uncovered` on `"coverage.out"` returns a
non-empty sequence `u`, `CovTest` returns exactly `1` and appends to the error
stream exactly `"Uncovered lines found:\n"`, then the elements of `u` joined by
newlines, then a final newline: each element of `u` on a line of its own, in
order. The joined text is given by the source's `Join`, by the library's
`String.intercalate`, and as the concatenation of the lines `l ++ "\n"`. -/
theorem C5_uncovered_reported (sys : System) (argv : List String) (w : World) (u : List String)
    (hrun : (runCommand sys "go"
      (["test"] ++ argv ++ ["-cover", "-coverprofile=coverage.out"]) w).1 = 0)
    (hunc : (Uncovered "coverage.out" (runCommand sys "go"
      (["test"] ++ argv ++ ["-cover", "-coverprofile=coverage.out"]) w).2).1 = .ok u)
    (hne : u ≠ []) :
    (CovTest sys argv w).1 = .ok 1 ∧
    (CovTest sys argv w).2.stderr
      = (runCommand sys "go"
          (["test"] ++ argv ++ ["-cover", "-coverprofile=coverage.out"]) w).2.stderr
        ++ ("Uncovered lines found:\n" ++ Join u "\n" ++ "\n") ∧
    (CovTest sys argv w).2.stderr
      = (runCommand sys "go"
          (["test"] ++ argv ++ ["-cover", "-coverprofile=coverage.out"]) w).2.stderr
        ++ ("Uncovered lines found:\n" ++ String.intercalate "\n" u ++ "\n") ∧
    (CovTest sys argv w).2.stderr
      = (runCommand sys "go"
          (["test"] ++ argv ++ ["-cover", "-coverprofile=coverage.out"]) w).2.stderr
        ++ ("Uncovered lines found:\n" ++ String.join (u.map (fun l => l ++ "\n"))) := by
  have hmain : (CovTest sys argv w).1 = .ok 1 ∧
      (CovTest sys argv w).2.stderr
        = (runCommand sys "go"
            (["test"] ++ argv ++ ["-cover", "-coverprofile=coverage.out"]) w).2.stderr
          ++ ("Uncovered lines found:\n" ++ Join u "\n" ++ "\n") := by
    rw [CovTest_runner_ok sys argv w hrun]
    generalize (runCommand sys "go"
      (["test"] ++ argv ++ ["-cover", "-coverprofile=coverage.out"]) w).2 = w1 at hunc ⊢
    have hw : (Uncovered "coverage.out" w1).2.stderr = w1.stderr := by
      rw [Uncovered_world]
    revert hunc hw
    cases hU : Uncovered "coverage.out" w1 with
    | mk res w2 =>
      intro hunc hw
      simp only at hunc hw
      subst hunc
      have hlen : u.length ≠ 0 := fun h => hne (List.length_eq_zero.mp h)
      simp only [hlen, ne_eq, not_false_eq_true, if_true, FprintlnStderr, hw]
      refine ⟨trivial, ?_⟩
      have hhead : "Uncovered lines found:" ++ "\n" = "Uncovered lines found:\n" := by decide
      rw [← hhead]
      simp only [String.append_assoc]
  refine ⟨hmain.1, hmain.2, ?_, ?_⟩
  · rw [hmain.2, Join_eq_intercalate]
  · rw [hmain.2, String.append_assoc "Uncovered lines found:\n", Join_newline_eq_join u hne]

theorem C5_uncovered_reported_witness :
    (CovTest (fakeGo "mode: set\na.go:1.1,2.2 1 1\nb.go:1.1,2.2 1 2\n" 0) [] emptyWorld).1 = .ok 1 ∧
    (CovTest (fakeGo "mode: set\na.go:1.1,2.2 1 1\nb.go:1.1,2.2 1 2\n" 0) [] emptyWorld).2.stderr
      = "Uncovered lines found:\na.go:1.1,2.2 1 1\nb.go:1.1,2.2 1 2\n" :=
  have h := C5_uncovered_reported (fakeGo "mode: set\na.go:1.1,2.2 1 1\nb.go:1.1,2.2 1 2\n" 0) []
    emptyWorld ["a.go:1.1,2.2 1 1", "b.go:1.1,2.2 1 2"] rfl rfl (by decide)
  ⟨h.1, h.2.2.1.trans (by decide)⟩

/-- C6: with a readable coverage file after the run, `CovTest` returns a code,
and that code is `0` if and only if the runner returned `0` and `Uncovered` on
`"coverage.out"` returned the empty sequence; otherwise it is non-zero: the
runner's own code when that is non-zero, and `1` when the runner returned `0`. -/
theorem C6_exit_code (sys : System) (argv : List String) (w : World) (content : String)
    (hread : (runCommand sys "go"
      (["test"] ++ argv ++ ["-cover", "-coverprofile=coverage.out"]) w).2.files "coverage.out"
        = .ok content) :
    ∃ r : Int, (CovTest sys argv w).1 = .ok r ∧
      (r = 0 ↔
        (runCommand sys "go"
          (["test"] ++ argv ++ ["-cover", "-coverprofile=coverage.out"]) w).1 = 0 ∧
        (Uncovered "coverage.out" (runCommand sys "go"
          (["test"] ++ argv ++ ["-cover", "-coverprofile=coverage.out"]) w).2).1 = .ok []) ∧
      ((runCommand sys "go"
          (["test"] ++ argv ++ ["-cover", "-coverprofile=coverage.out"]) w).1 ≠ 0 →
        r = (runCommand sys "go"
          (["test"] ++ argv ++ ["-cover", "-coverprofile=coverage.out"]) w).1) ∧
      ((runCommand sys "go"
          (["test"] ++ argv ++ ["-cover", "-coverprofile=coverage.out"]) w).1 = 0 →
        (Uncovered "coverage.out" (runCommand sys "go"
          (["test"] ++ argv ++ ["-cover", "-coverprofile=coverage.out"]) w).2).1 ≠ .ok [] →
        r = 1) := by
  by_cases hc : (runCommand sys "go"
      (["test"] ++ argv ++ ["-cover", "-coverprofile=coverage.out"]) w).1 = 0
  · rw [CovTest_runner_ok sys argv w hc, Uncovered_readable _ _ content hread]
    generalize ((nonEmptyLines content).tail).filter (fun l => !(endsWithSpaceZero l)) = u
    cases u with
    | nil =>
      refine ⟨0, by simp, ?_, ?_, ?_⟩
      · exact ⟨fun _ => ⟨hc, rfl⟩, fun _ => rfl⟩
      · intro hne; exact absurd hc hne
      · intro _ hne; exact absurd rfl hne
    | cons a u =>
      refine ⟨1, by simp, ?_, ?_, ?_⟩
      · simp
      · intro hne; exact absurd hc hne
      · intro _ _; rfl
  · rw [CovTest_runner_failed sys argv w hc]
    refine ⟨_, rfl, ?_, ?_, ?_⟩
    · constructor
      · intro h; exact absurd h hc
      · intro h; exact h.1
    · intro _; rfl
    · intro h; exact absurd h hc

theorem C6_exit_code_witness :
    ∃ r : Int, (CovTest (fakeGo "mode: set\na.go:1.1,2.2 1 0\n" 0) ["./..."] emptyWorld).1 = .ok r ∧
      (r = 0 ↔
        (runCommand (fakeGo "mode: set\na.go:1.1,2.2 1 0\n" 0) "go"
          (["test"] ++ ["./..."] ++ ["-cover", "-coverprofile=coverage.out"]) emptyWorld).1 = 0 ∧
        (Uncovered "coverage.out" (runCommand (fakeGo "mode: set\na.go:1.1,2.2 1 0\n" 0) "go"
          (["test"] ++ ["./..."] ++ ["-cover", "-coverprofile=coverage.out"]) emptyWorld).2).1
            = .ok []) :=
  have ⟨r, h1, h2, _, _⟩ := C6_exit_code (fakeGo "mode: set\na.go:1.1,2.2 1 0\n" 0) ["./..."]
    emptyWorld "mode: set\na.go:1.1,2.2 1 0\n" rfl
  ⟨r, h1, h2⟩

/-- C7: for every caller argument list `argv`, `CovTest` runs exactly one command,
the tool `"go"` with the arguments
`["test"] ++ argv ++ ["-cover", "-coverprofile=coverage.out"]`; for
`argv = ["hello", "world"]` these are
`["test", "hello", "world", "-cover", "-coverprofile=coverage.out"]`. -/
theorem C7_runner_arguments (sys : System) (argv : List String) (w : World) :
    (CovTest sys argv w).2.spawned
        = w.spawned ++ [("go", ["test"] ++ argv ++ ["-cover", "-coverprofile=coverage.out"])] ∧
    (CovTest sys ["hello", "world"] w).2.spawned
        = w.spawned ++ [("go", ["test", "hello", "world", "-cover", "-coverprofile=coverage.out"])] := by
  have key : ∀ args : List String, (CovTest sys args w).2.spawned
      = w.spawned ++ [("go", ["test"] ++ args ++ ["-cover", "-coverprofile=coverage.out"])] := by
    intro args
    by_cases hc : (runCommand sys "go"
        (["test"] ++ args ++ ["-cover", "-coverprofile=coverage.out"]) w).1 = 0
    · rw [CovTest_runner_ok sys args w hc]
      cases hf : (runCommand sys "go"
          (["test"] ++ args ++ ["-cover", "-coverprofile=coverage.out"]) w).2.files "coverage.out" with
      | error err =>
        rw [Uncovered_unreadable _ _ err hf, runCommand_world]
      | ok content =>
        rw [Uncovered_readable _ _ content hf, runCommand_world]
        dsimp only
        split <;> rfl
    · rw [CovTest_runner_failed sys args w hc, runCommand_world]
  exact ⟨key argv, key ["hello", "world"]⟩

/-! ## Further lemmas on splitting -/

/-- A rune satisfying `f` cuts the input of the `FieldsFunc` loop in two
independent parts. -/
theorem fieldsLoop_append_sep (f : Char → Bool) (d : Char) (hd : f d = true)
    (xs as : List Char) (start : Option (List Char)) :
    fieldsLoop f (xs ++ d :: as) start []
      = fieldsLoop f xs start [] ++ fieldsLoop f as none [] := by
  induction xs generalizing start with
  | nil =>
    cases start with
    | none => simp [fieldsLoop, hd]
    | some field =>
      simp only [List.nil_append, fieldsLoop, hd, if_true]
      rw [fieldsLoop_spans]
  | cons x xs ih =>
    cases start with
    | none =>
      by_cases hx : f x = true
      · simp only [List.cons_append, fieldsLoop, hx, if_true]; exact ih none
      · simp only [List.cons_append, fieldsLoop, hx]; exact ih (some [x])
    | some field =>
      by_cases hx : f x = true
      · simp only [List.cons_append, fieldsLoop, hx, if_true]
        show fieldsLoop f (xs ++ d :: as) none ([] ++ [field])
          = fieldsLoop f xs none ([] ++ [field]) ++ fieldsLoop f as none []
        rw [fieldsLoop_spans f (xs ++ d :: as), fieldsLoop_spans f xs, ih none]
        simp
      · simp only [List.cons_append, fieldsLoop, hx]; exact ih (some (field ++ [x]))

/-- The input without any rune satisfying `f` is one field, unless it is empty. -/
theorem fieldsLoop_no_sep (f : Char → Bool) (xs : List Char) (hxs : ∀ c ∈ xs, f c = false) :
    (xs ≠ [] → fieldsLoop f xs none [] = [xs]) ∧
    ∀ field : List Char, fieldsLoop f xs (some field) [] = [field ++ xs] := by
  induction xs with
  | nil => exact ⟨fun h => absurd rfl h, fun field => by simp [fieldsLoop]⟩
  | cons x xs ih =>
    have hx : f x = false := hxs x (List.mem_cons_self x xs)
    have ih2 := (ih (fun c hc => hxs c (List.mem_cons_of_mem x hc))).2
    refine ⟨fun _ => ?_, fun field => ?_⟩
    · simp only [fieldsLoop, hx]
      rw [ih2 [x]]; simp
    · simp only [fieldsLoop, hx]
      rw [ih2 (field ++ [x])]; simp

/-- The source `splitWithoutEmpty` is the split at the delimiter with the empty
segments removed. -/
theorem splitWithoutEmpty_eq_splitThenRemoveEmpty (s : String) (d : Char) :
    splitWithoutEmpty s d = splitThenRemoveEmpty s d := by
  unfold splitWithoutEmpty FieldsFunc splitThenRemoveEmpty List.splitOn
  rw [(fieldsLoop_eq_splitOnP _ _).1, List.filter_map]
  congr 1
  apply List.filter_congr
  intro seg _
  simp [Function.comp_def, String.ext_iff]

/-- The non-empty lines of two texts put together with a newline in between. -/
theorem nonEmptyLines_append_newline (a b : String) :
    nonEmptyLines (a ++ "\n" ++ b) = nonEmptyLines a ++ nonEmptyLines b := by
  have hdata : (a ++ "\n" ++ b).data = a.data ++ '\n' :: b.data := by
    simp [String.data_append]
  rw [← splitWithoutEmpty_eq_nonEmptyLines, ← splitWithoutEmpty_eq_nonEmptyLines,
    ← splitWithoutEmpty_eq_nonEmptyLines]
  unfold splitWithoutEmpty FieldsFunc
  rw [hdata, fieldsLoop_append_sep _ '\n' (by simp)]
  simp

theorem nonEmptyLines_empty : nonEmptyLines "" = [] := by
  rfl

/-- No segment of a split contains a rune satisfying the test. -/
theorem splitOnP_no_sep (p : Char → Bool) (xs : List Char) :
    ∀ seg ∈ xs.splitOnP p, ∀ c ∈ seg, p c = false := by
  induction xs with
  | nil => intro seg hseg c hc; simp [List.splitOnP_nil] at hseg; subst hseg; simp at hc
  | cons x xs ih =>
    intro seg hseg c hc
    rw [List.splitOnP_cons] at hseg
    by_cases hx : p x = true
    · simp only [hx, if_true, List.mem_cons] at hseg
      rcases hseg with h | h
      · subst h; simp at hc
      · exact ih seg h c hc
    · simp only [hx] at hseg
      cases hsplit : List.splitOnP p xs with
      | nil => rw [hsplit] at hseg; simp at hseg
      | cons first others =>
        rw [hsplit] at hseg ih
        simp only [List.modifyHead_cons, List.mem_cons, Bool.false_eq_true, if_false] at hseg
        rcases hseg with h | h
        · subst h
          rcases List.mem_cons.mp hc with h1 | h1
          · subst h1; simpa using hx
          · exact ih first (List.mem_cons_self _ _) c h1
        · exact ih seg (List.mem_cons_of_mem _ h) c hc

/-- Every non-empty line is non-empty and free of newline characters. -/
theorem mem_nonEmptyLines (content l : String) (hl : l ∈ nonEmptyLines content) :
    l ≠ "" ∧ '\n' ∉ l.data := by
  unfold nonEmptyLines List.splitOn at hl
  rw [List.mem_filter, List.mem_map] at hl
  obtain ⟨⟨seg, hseg, hmk⟩, hne⟩ := hl
  refine ⟨by simpa using hne, ?_⟩
  intro hmem
  subst hmk
  have := splitOnP_no_sep _ _ seg hseg '\n' hmem
  simp at this

/-! ## Claims on order, aborts and silence -/

/-- C11: the result of `Uncovered` is a subsequence of the file's lines in their
original order (a sublist of the lines after the header, hence of all lines), and
nothing is deduplicated: a line that passes the filter occurs in the result
exactly as often as it occurs after the header. -/
theorem C11_order_and_multiplicity (path : String) (w : World) (content : String)
    (hread : w.files path = .ok content) :
    ∃ r, (Uncovered path w).1 = .ok r ∧
      r.Sublist (nonEmptyLines content).tail ∧
      r.Sublist ((content.data.splitOn '\n').map String.mk) ∧
      ∀ l : String, endsWithSpaceZero l = false →
        r.count l = ((nonEmptyLines content).tail).count l := by
  refine ⟨_, by rw [Uncovered_readable path w content hread], List.filter_sublist _, ?_, ?_⟩
  · refine (List.filter_sublist _).trans ((List.tail_sublist _).trans ?_)
    unfold nonEmptyLines
    exact List.filter_sublist _
  · intro l hl
    exact List.count_filter (by simp [hl])

theorem C11_order_and_multiplicity_witness :
    ∃ r, (Uncovered "coverage.out" (worldWith "mode: set\na 1\nb 0\na 1\n")).1 = .ok r ∧
      r.Sublist (nonEmptyLines "mode: set\na 1\nb 0\na 1\n").tail ∧
      r.Sublist (("mode: set\na 1\nb 0\na 1\n".data.splitOn '\n').map String.mk) ∧
      ∀ l : String, endsWithSpaceZero l = false →
        r.count l = ((nonEmptyLines "mode: set\na 1\nb 0\na 1\n").tail).count l :=
  C11_order_and_multiplicity "coverage.out" (worldWith "mode: set\na 1\nb 0\na 1\n")
    "mode: set\na 1\nb 0\na 1\n" rfl

/-- C12: `CovTest` panics if and only if the runner returned `0` and the file
`"coverage.out"` cannot be read afterwards; when the runner returned a non-zero
code `CovTest` returns a code normally, whatever the files are. -/
theorem C12_CovTest_abort_iff (sys : System) (argv : List String) (w : World) :
    ((∃ e, (CovTest sys argv w).1 = .error e) ↔
      (runCommand sys "go" (["test"] ++ argv ++ ["-cover", "-coverprofile=coverage.out"]) w).1 = 0 ∧
      ∃ e, (runCommand sys "go"
        (["test"] ++ argv ++ ["-cover", "-coverprofile=coverage.out"]) w).2.files "coverage.out"
          = .error e) ∧
    ((runCommand sys "go" (["test"] ++ argv ++ ["-cover", "-coverprofile=coverage.out"]) w).1 ≠ 0 →
      ∃ r, (CovTest sys argv w).1 = .ok r) := by
  have hfail : (runCommand sys "go"
      (["test"] ++ argv ++ ["-cover", "-coverprofile=coverage.out"]) w).1 ≠ 0 →
      ∃ r, (CovTest sys argv w).1 = .ok r := by
    intro hc
    rw [CovTest_runner_failed sys argv w hc]
    exact ⟨_, rfl⟩
  refine ⟨?_, hfail⟩
  by_cases hc : (runCommand sys "go"
      (["test"] ++ argv ++ ["-cover", "-coverprofile=coverage.out"]) w).1 = 0
  · rw [CovTest_runner_ok sys argv w hc]
    cases hf : (runCommand sys "go"
        (["test"] ++ argv ++ ["-cover", "-coverprofile=coverage.out"]) w).2.files "coverage.out" with
    | error err =>
      rw [Uncovered_unreadable _ _ err hf]
      exact ⟨fun _ => ⟨hc, err, rfl⟩, fun _ => ⟨err, rfl⟩⟩
    | ok content =>
      rw [Uncovered_readable _ _ content hf]
      constructor
      · rintro ⟨e, he⟩
        dsimp only at he
        split at he <;> cases he
      · rintro ⟨_, e, he⟩
        cases he
  · constructor
    · rintro ⟨e, he⟩
      obtain ⟨r, hr⟩ := hfail hc
      rw [hr] at he
      cases he
    · rintro ⟨h0, _⟩
      exact absurd h0 hc

theorem C12_CovTest_abort_iff_witness :
    (∃ e, (CovTest (silentGo 0) [] emptyWorld).1 = .error e) ∧
    ∃ r, (CovTest (silentGo 3) [] emptyWorld).1 = .ok r :=
  ⟨(C12_CovTest_abort_iff (silentGo 0) [] emptyWorld).1.mpr ⟨rfl, "no such file", rfl⟩,
   (C12_CovTest_abort_iff (silentGo 3) [] emptyWorld).2 (by decide)⟩

/-- C13: `Uncovered` panics if and only if the file cannot be read, and then with
the read error; on every readable content it returns a sequence, because the
slice `lines[1:]` is only taken when `lines` is not empty and is then in range. -/
theorem C13_Uncovered_abort_iff (path : String) (w : World) :
    ((∃ e, (Uncovered path w).1 = .error e) ↔ ∃ e, w.files path = .error e) ∧
    (∀ e, w.files path = .error e → (Uncovered path w).1 = .error e) ∧
    (∀ content, w.files path = .ok content → ∃ r, (Uncovered path w).1 = .ok r) ∧
    (∀ content : String, (splitWithoutEmpty content '\n').length ≠ 0 →
      sliceFrom (splitWithoutEmpty content '\n') 1
        = .ok ((splitWithoutEmpty content '\n').drop 1)) := by
  refine ⟨?_, ?_, ?_, ?_⟩
  · cases hf : w.files path with
    | error err =>
      rw [Uncovered_unreadable path w err hf]
      exact ⟨fun _ => ⟨err, rfl⟩, fun _ => ⟨err, rfl⟩⟩
    | ok content =>
      rw [Uncovered_readable path w content hf]
      constructor
      · rintro ⟨e, he⟩; cases he
      · rintro ⟨e, he⟩; cases he
  · intro e hf
    rw [Uncovered_unreadable path w e hf]
  · intro content hf
    rw [Uncovered_readable path w content hf]
    exact ⟨_, rfl⟩
  · intro content hlen
    unfold sliceFrom
    rw [if_pos (Nat.one_le_iff_ne_zero.mpr hlen)]

theorem C13_Uncovered_abort_iff_witness :
    (Uncovered "coverage.out" emptyWorld).1 = .error "no such file" ∧
    (∃ r, (Uncovered "coverage.out" (worldWith "")).1 = .ok r) ∧
    (∃ r, (Uncovered "coverage.out" (worldWith "mode: set")).1 = .ok r) :=
  ⟨(C13_Uncovered_abort_iff "coverage.out" emptyWorld).2.1 "no such file" rfl,
   (C13_Uncovered_abort_iff "coverage.out" (worldWith "")).2.2.1 "" rfl,
   (C13_Uncovered_abort_iff "coverage.out" (worldWith "mode: set")).2.2.1 "mode: set" rfl⟩

/-- C14: when the runner returned a non-zero code, or returned `0` and `Uncovered`
returned the empty sequence, `CovTest` adds nothing to the error stream beyond
what the runner's process wrote; and in every case `CovTest` adds nothing to the
standard output beyond what the runner's process wrote. -/
theorem C14_silent_otherwise (sys : System) (argv : List String) (w : World) :
    (((runCommand sys "go" (["test"] ++ argv ++ ["-cover", "-coverprofile=coverage.out"]) w).1 ≠ 0 ∨
      ((runCommand sys "go" (["test"] ++ argv ++ ["-cover", "-coverprofile=coverage.out"]) w).1 = 0 ∧
        (Uncovered "coverage.out" (runCommand sys "go"
          (["test"] ++ argv ++ ["-cover", "-coverprofile=coverage.out"]) w).2).1 = .ok [])) →
      (CovTest sys argv w).2.stderr
        = (runCommand sys "go"
            (["test"] ++ argv ++ ["-cover", "-coverprofile=coverage.out"]) w).2.stderr) ∧
    (CovTest sys argv w).2.stdout
      = (runCommand sys "go"
          (["test"] ++ argv ++ ["-cover", "-coverprofile=coverage.out"]) w).2.stdout := by
  by_cases hc : (runCommand sys "go"
      (["test"] ++ argv ++ ["-cover", "-coverprofile=coverage.out"]) w).1 = 0
  · rw [CovTest_runner_ok sys argv w hc]
    generalize (runCommand sys "go"
      (["test"] ++ argv ++ ["-cover", "-coverprofile=coverage.out"]) w).2 = w1
    have hw := Uncovered_world "coverage.out" w1
    revert hw
    cases hU : Uncovered "coverage.out" w1 with
    | mk res w2 =>
      intro hw
      simp only at hw
      subst hw
      cases res with
      | error e => exact ⟨fun _ => rfl, rfl⟩
      | ok u =>
        cases u with
        | nil => exact ⟨fun _ => rfl, rfl⟩
        | cons a u =>
          refine ⟨?_, rfl⟩
          rintro (h | ⟨_, h⟩)
          · exact absurd hc h
          · cases h
  · rw [CovTest_runner_failed sys argv w hc]
    exact ⟨fun _ => rfl, rfl⟩

theorem C14_silent_otherwise_witness :
    (CovTest (fakeGo "mode: set\na.go:1.1,2.2 1 0\n" 0) [] emptyWorld).2.stderr
      = (runCommand (fakeGo "mode: set\na.go:1.1,2.2 1 0\n" 0) "go"
          (["test"] ++ [] ++ ["-cover", "-coverprofile=coverage.out"]) emptyWorld).2.stderr :=
  (C14_silent_otherwise (fakeGo "mode: set\na.go:1.1,2.2 1 0\n" 0) [] emptyWorld).1
    (Or.inr ⟨rfl, rfl⟩)

/-! ## Claims on splitting and filtering -/

/-- C15: a trailing newline, a leading newline, or a doubled newline never
changes the result of `Uncovered`: the results on `c ++ "\n"` and on `"\n" ++ c`
are the result on `c`, the result on `a ++ "\n\n" ++ b` is the result on
`a ++ "\n" ++ b`, and no element of a result is the empty string. -/
theorem C15_blank_lines_ignored :
    (∀ (path : String) (w w' : World) (c : String),
      w.files path = .ok (c ++ "\n") → w'.files path = .ok c →
      (Uncovered path w).1 = (Uncovered path w').1) ∧
    (∀ (path : String) (w w' : World) (c : String),
      w.files path = .ok ("\n" ++ c) → w'.files path = .ok c →
      (Uncovered path w).1 = (Uncovered path w').1) ∧
    (∀ (path : String) (w w' : World) (a b : String),
      w.files path = .ok (a ++ "\n\n" ++ b) → w'.files path = .ok (a ++ "\n" ++ b) →
      (Uncovered path w).1 = (Uncovered path w').1) ∧
    (∀ (path : String) (w : World) (content : String) (r : List String),
      w.files path = .ok content → (Uncovered path w).1 = .ok r → "" ∉ r) := by
  have htrail : ∀ c : String, nonEmptyLines (c ++ "\n") = nonEmptyLines c := by
    intro c
    have h := nonEmptyLines_append_newline c ""
    rw [nonEmptyLines_empty, List.append_nil] at h
    rw [← h]
    congr 1
    apply String.ext
    simp [String.data_append]
  have hlead : ∀ c : String, nonEmptyLines ("\n" ++ c) = nonEmptyLines c := by
    intro c
    have h := nonEmptyLines_append_newline "" c
    rw [nonEmptyLines_empty, List.nil_append] at h
    rw [← h]
    congr 1
  have hdouble : ∀ a b : String,
      nonEmptyLines (a ++ "\n\n" ++ b) = nonEmptyLines (a ++ "\n" ++ b) := by
    intro a b
    have hshape : a ++ "\n\n" ++ b = a ++ "\n" ++ ("\n" ++ b) := by
      apply String.ext
      simp [String.data_append]
    rw [hshape, nonEmptyLines_append_newline, nonEmptyLines_append_newline, hlead]
  refine ⟨?_, ?_, ?_, ?_⟩
  · intro path w w' c hread hread'
    rw [Uncovered_readable path w _ hread, Uncovered_readable path w' _ hread', htrail]
  · intro path w w' c hread hread'
    rw [Uncovered_readable path w _ hread, Uncovered_readable path w' _ hread', hlead]
  · intro path w w' a b hread hread'
    rw [Uncovered_readable path w _ hread, Uncovered_readable path w' _ hread', hdouble]
  · intro path w content r hread hres hmem
    rw [Uncovered_readable path w content hread] at hres
    have hr : r = ((nonEmptyLines content).tail).filter (fun l => !(endsWithSpaceZero l)) :=
      (Except.ok.inj hres).symm
    rw [hr] at hmem
    have hin : "" ∈ nonEmptyLines content :=
      (List.tail_sublist _).subset ((List.filter_sublist _).subset hmem)
    exact (mem_nonEmptyLines content "" hin).1 rfl

theorem C15_blank_lines_ignored_witness :
    (Uncovered "coverage.out" (worldWith ("mode: set\na 1" ++ "\n"))).1
      = (Uncovered "coverage.out" (worldWith "mode: set\na 1")).1 ∧
    (Uncovered "coverage.out" (worldWith ("mode: set" ++ "\n\n" ++ "a 1"))).1
      = (Uncovered "coverage.out" (worldWith ("mode: set" ++ "\n" ++ "a 1"))).1 :=
  ⟨C15_blank_lines_ignored.1 "coverage.out" (worldWith ("mode: set\na 1" ++ "\n"))
      (worldWith "mode: set\na 1") "mode: set\na 1" rfl rfl,
   C15_blank_lines_ignored.2.2.1 "coverage.out" (worldWith ("mode: set" ++ "\n\n" ++ "a 1"))
      (worldWith ("mode: set" ++ "\n" ++ "a 1")) "mode: set" "a 1" rfl rfl⟩

/-- C17: `splitWithoutEmpty s d` is the list obtained by splitting `s` at every
occurrence of `d` and then removing the empty segments (also when the split is
the library's `String.split`); in particular `splitWithoutEmpty "" d = []`, and a
non-empty string without `d`, such as `"foo"`, is returned as its single field. -/
theorem C17_splitWithoutEmpty_refines (s : String) (d : Char) :
    splitWithoutEmpty s d = splitThenRemoveEmpty s d ∧
    splitWithoutEmpty s d = (s.split (fun c => c == d)).filter (fun seg => seg ≠ "") ∧
    splitWithoutEmpty "" d = [] ∧
    (d ∉ "foo".data → splitWithoutEmpty "foo" d = ["foo"]) ∧
    (s ≠ "" → d ∉ s.data → splitWithoutEmpty s d = [s]) := by
  have hsingle : ∀ t : String, t ≠ "" → d ∉ t.data → splitWithoutEmpty t d = [t] := by
    intro t hne hd
    unfold splitWithoutEmpty FieldsFunc
    have hfree : ∀ c ∈ t.data, (fun c => c == d) c = false := by
      intro c hc
      simp only [beq_eq_false_iff_ne, ne_eq]
      intro hcd
      exact hd (hcd ▸ hc)
    have hdata : t.data ≠ [] := fun h => hne (String.ext h)
    rw [(fieldsLoop_no_sep _ t.data hfree).1 hdata]
    rfl
  refine ⟨splitWithoutEmpty_eq_splitThenRemoveEmpty s d, ?_, rfl, ?_, hsingle s⟩
  · rw [splitWithoutEmpty_eq_splitThenRemoveEmpty, String.split_of_valid]
    rfl
  · exact hsingle "foo" (by decide)

theorem C17_splitWithoutEmpty_refines_witness :
    splitWithoutEmpty "foo" ',' = ["foo"] ∧
    splitWithoutEmpty ",a,,b," ',' = splitThenRemoveEmpty ",a,,b," ',' :=
  ⟨(C17_splitWithoutEmpty_refines "foo" ',').2.2.2.1 (by decide),
   (C17_splitWithoutEmpty_refines ",a,,b," ',').1⟩

/-- C19: the source `filter` returns exactly the elements of `ss` that satisfy
`test`, in order and with their multiplicities: it equals `List.filter test ss`;
every element of the result satisfies `test`, and every element of `ss` that
satisfies `test` is in the result. -/
theorem C19_filter_is_list_filter (ss : List String) (test : String → Bool) :
    filter ss test = ss.filter test ∧
    (filter ss test).Sublist ss ∧
    (∀ s : String, test s = true → (filter ss test).count s = ss.count s) ∧
    (∀ s ∈ filter ss test, test s = true) ∧
    (∀ s ∈ ss, test s = true → s ∈ filter ss test) := by
  rw [filter_eq]
  refine ⟨rfl, List.filter_sublist _, ?_, ?_, ?_⟩
  · intro s hs
    exact List.count_filter hs
  · intro s hs
    exact (List.mem_filter.mp hs).2
  · intro s hs ht
    exact List.mem_filter.mpr ⟨hs, ht⟩

theorem C19_filter_is_list_filter_witness :
    filter ["a", "bb", "a", "ccc"] (fun s => s.length < 3) = ["a", "bb", "a"] ∧
    "bb" ∈ filter ["a", "bb", "a", "ccc"] (fun s => s.length < 3) :=
  ⟨by decide,
   (C19_filter_is_list_filter ["a", "bb", "a", "ccc"] (fun s => s.length < 3)).2.2.2.2 "bb"
     (by decide) (by decide)⟩

/-! ## The record filter and the trailing token -/

/-- The trailing token of a line of the record form `prefix ++ " " ++ count`,
with `count` non-empty and free of whitespace, is `count`. -/
theorem trailingToken_record (pre count : String) (hne : count ≠ "")
    (hfree : ∀ c ∈ count.data, c.isWhitespace = false) :
    trailingToken (pre ++ " " ++ count) = some count := by
  have hdata : (pre ++ " " ++ count).data = pre.data ++ ' ' :: count.data := by
    simp [String.data_append]
  have hcount : count.data ≠ [] := fun h => hne (String.ext h)
  unfold trailingToken FieldsFunc
  rw [hdata, fieldsLoop_append_sep Char.isWhitespace ' ' (by decide),
    (fieldsLoop_no_sep Char.isWhitespace count.data hfree).1 hcount, List.getLast?_map,
    List.getLast?_concat]
  rfl

/-- A line of the record form ends with `" 0"` exactly when its count is `"0"`. -/
theorem HasSuffix_record (pre count : String) (hne : count ≠ "")
    (hfree : ∀ c ∈ count.data, c.isWhitespace = false) :
    HasSuffix (pre ++ " " ++ count) " 0" = true ↔ count = "0" := by
  have hdata : (pre ++ " " ++ count).data = pre.data ++ ' ' :: count.data := by
    simp [String.data_append]
  have hzero : " 0".data = [' ', '0'] := rfl
  rw [HasSuffix_iff, hdata, hzero]
  constructor
  · intro hsuf
    have hrev : ['0', ' '] <+: count.data.reverse ++ ' ' :: pre.data.reverse := by
      have := List.reverse_prefix.mpr hsuf
      simpa using this
    apply String.ext
    show count.data = ['0']
    cases hc : count.data.reverse with
    | nil =>
      exact absurd (List.reverse_eq_nil_iff.mp hc) (fun h => hne (String.ext h))
    | cons c rest =>
      rw [hc] at hrev
      cases rest with
      | nil =>
        have hc0 : c = '0' := by
          obtain ⟨t, ht⟩ := hrev
          simp only [List.cons_append, List.nil_append, List.cons.injEq] at ht
          exact ht.1.symm
        have : count.data = [c] := by
          have := congrArg List.reverse hc
          simpa using this
        rw [this, hc0]
      | cons c2 rest2 =>
        exfalso
        have hpre : ['0', ' '] <+: c :: c2 :: (rest2 ++ ' ' :: pre.data.reverse) := by
          simpa using hrev
        obtain ⟨t, ht⟩ := hpre
        simp only [List.cons_append, List.nil_append, List.cons.injEq] at ht
        have hc2 : c2 = ' ' := ht.2.1.symm
        have hmem : c2 ∈ count.data := by
          have : c2 ∈ count.data.reverse := by rw [hc]; simp
          exact List.mem_reverse.mp this
        have := hfree c2 hmem
        rw [hc2] at this
        exact absurd this (by decide)
  · intro hcount
    rw [hcount]
    exact ⟨pre.data, by simp⟩

/-- The text `CovTest` appends to the error stream when the runner returned `0`
and `Uncovered` returned a non-empty sequence. -/
theorem CovTest_listing (sys : System) (argv : List String) (w : World) (u : List String)
    (hrun : (runCommand sys "go"
      (["test"] ++ argv ++ ["-cover", "-coverprofile=coverage.out"]) w).1 = 0)
    (hunc : (Uncovered "coverage.out" (runCommand sys "go"
      (["test"] ++ argv ++ ["-cover", "-coverprofile=coverage.out"]) w).2).1 = .ok u)
    (hne : u ≠ []) :
    (CovTest sys argv w).2.stderr
      = (runCommand sys "go"
          (["test"] ++ argv ++ ["-cover", "-coverprofile=coverage.out"]) w).2.stderr
        ++ ("Uncovered lines found:\n" ++ Join u "\n" ++ "\n") := by
  rw [CovTest_runner_ok sys argv w hrun]
  generalize (runCommand sys "go"
    (["test"] ++ argv ++ ["-cover", "-coverprofile=coverage.out"]) w).2 = w1 at hunc ⊢
  have hw := Uncovered_world "coverage.out" w1
  revert hunc hw
  cases hU : Uncovered "coverage.out" w1 with
  | mk res w2 =>
    intro hunc hw
    simp only at hunc hw
    subst hunc hw
    have hlen : u.length ≠ 0 := fun h => hne (List.length_eq_zero.mp h)
    simp only [hlen, ne_eq, not_false_eq_true, if_true, FprintlnStderr]
    have hhead : "Uncovered lines found:" ++ "\n" = "Uncovered lines found:\n" := by decide
    rw [← hhead]
    simp only [String.append_assoc]

/-- Joining newline-free strings with newlines uses one newline less than there
are strings. -/
theorem lineCount_Join (u : List String) (hfree : ∀ l ∈ u, '\n' ∉ l.data) (hne : u ≠ []) :
    lineCount (Join u "\n") + 1 = u.length := by
  induction u with
  | nil => exact absurd rfl hne
  | cons e es ih =>
    have he : List.count '\n' e.data = 0 :=
      List.count_eq_zero_of_not_mem (hfree e (List.mem_cons_self e es))
    cases es with
    | nil => simp [Join, lineCount, he]
    | cons e2 es2 =>
      have ih2 := ih (fun l hl => hfree l (List.mem_cons_of_mem e hl)) (by simp)
      have hnl : List.count '\n' "\n".data = 1 := by decide
      unfold lineCount at ih2 ⊢
      simp only [Join, String.data_append, List.count_append, he, hnl, List.length_cons] at ih2 ⊢
      omega

/-- C16 (counterexample): the lines `"0"` and `"a\t0"` are non-empty and free of
newlines, their trailing whitespace-delimited token is the literal `"0"`, and
neither ends with the exact substring `" 0"`. -/
theorem C16_token_not_suffix :
    ("0" ≠ "" ∧ '\n' ∉ "0".data ∧ trailingToken "0" = some "0" ∧ HasSuffix "0" " 0" = false) ∧
    ("a\t0" ≠ "" ∧ '\n' ∉ "a\t0".data ∧ trailingToken "a\t0" = some "0" ∧
      HasSuffix "a\t0" " 0" = false) := by
  decide

/-- C16 (amended): a line that ends with the exact substring `" 0"`, the test the
code applies with `strings.HasSuffix`, has the literal `"0"` as its trailing
whitespace-delimited token; and for a line of the record form
`prefix ++ " " ++ count`, with `count` non-empty and free of whitespace, the
trailing token is `"0"` if and only if the line ends with `" 0"`. -/
theorem C16_suffix_iff_token_on_records :
    (∀ l : String, HasSuffix l " 0" = true → trailingToken l = some "0") ∧
    (∀ pre count : String, count ≠ "" → (∀ c ∈ count.data, c.isWhitespace = false) →
      (trailingToken (pre ++ " " ++ count) = some "0"
        ↔ HasSuffix (pre ++ " " ++ count) " 0" = true)) := by
  have hrec : ∀ pre count : String, count ≠ "" → (∀ c ∈ count.data, c.isWhitespace = false) →
      (trailingToken (pre ++ " " ++ count) = some "0"
        ↔ HasSuffix (pre ++ " " ++ count) " 0" = true) := by
    intro pre count hne hfree
    rw [trailingToken_record pre count hne hfree, HasSuffix_record pre count hne hfree]
    exact ⟨fun h => Option.some.inj h, fun h => by rw [h]⟩
  refine ⟨?_, hrec⟩
  intro l hl
  obtain ⟨t, ht⟩ := (HasSuffix_iff l " 0").mp hl
  have hshape : l = String.mk t ++ " " ++ "0" := by
    apply String.ext
    rw [← ht]
    simp [String.data_append]
  have hfree : ∀ c ∈ "0".data, c.isWhitespace = false := by decide
  rw [hshape] at hl ⊢
  exact (hrec (String.mk t) "0" (by decide) hfree).mpr hl

theorem C16_suffix_iff_token_on_records_witness :
    trailingToken "foo/pkg.go:1.2,3.4 1 0" = some "0" ∧
    (trailingToken ("foo/pkg.go:1.2,3.4 1" ++ " " ++ "10") = some "0"
      ↔ HasSuffix ("foo/pkg.go:1.2,3.4 1" ++ " " ++ "10") " 0" = true) :=
  ⟨C16_suffix_iff_token_on_records.1 "foo/pkg.go:1.2,3.4 1 0" (by decide),
   C16_suffix_iff_token_on_records.2 "foo/pkg.go:1.2,3.4 1" "10" (by decide) (by decide)⟩

/-- C18: every element of the result of `Uncovered` is a non-empty string without
a newline character; the result has at most `n - 1` elements, `n` being the
number of non-empty lines of the content (none when `n = 0`); and the listing
`CovTest` writes for a non-empty result `u` has exactly `1 + len(u)` lines. -/
theorem C18_result_shape :
    (∀ (path : String) (w : World) (content : String) (r : List String),
      w.files path = .ok content → (Uncovered path w).1 = .ok r →
      (∀ l ∈ r, l ≠ "" ∧ '\n' ∉ l.data) ∧
      r.length ≤ (nonEmptyLines content).length - 1 ∧
      ((nonEmptyLines content).length = 0 → r.length = 0)) ∧
    (∀ (sys : System) (argv : List String) (w : World) (u : List String),
      (runCommand sys "go" (["test"] ++ argv ++ ["-cover", "-coverprofile=coverage.out"]) w).1 = 0 →
      (Uncovered "coverage.out" (runCommand sys "go"
        (["test"] ++ argv ++ ["-cover", "-coverprofile=coverage.out"]) w).2).1 = .ok u →
      u ≠ [] →
      ∃ listing : String,
        (CovTest sys argv w).2.stderr
          = (runCommand sys "go"
              (["test"] ++ argv ++ ["-cover", "-coverprofile=coverage.out"]) w).2.stderr
            ++ listing ∧
        listing = "Uncovered lines found:\n" ++ Join u "\n" ++ "\n" ∧
        lineCount listing = 1 + u.length) := by
  have hshape : ∀ (path : String) (w : World) (content : String) (r : List String),
      w.files path = .ok content → (Uncovered path w).1 = .ok r →
      (∀ l ∈ r, l ≠ "" ∧ '\n' ∉ l.data) ∧
      r.length ≤ (nonEmptyLines content).length - 1 ∧
      ((nonEmptyLines content).length = 0 → r.length = 0) := by
    intro path w content r hread hres
    rw [Uncovered_readable path w content hread] at hres
    have hr : r = ((nonEmptyLines content).tail).filter (fun l => !(endsWithSpaceZero l)) :=
      (Except.ok.inj hres).symm
    have hlen : r.length ≤ (nonEmptyLines content).length - 1 := by
      rw [hr, ← List.length_tail]
      exact List.length_filter_le _ _
    refine ⟨?_, hlen, fun h0 => by omega⟩
    intro l hl
    rw [hr] at hl
    exact mem_nonEmptyLines content l
      ((List.tail_sublist _).subset ((List.filter_sublist _).subset hl))
  refine ⟨hshape, ?_⟩
  intro sys argv w u hrun hunc hne
  refine ⟨_, CovTest_listing sys argv w u hrun hunc hne, rfl, ?_⟩
  have hfree : ∀ l ∈ u, '\n' ∉ l.data := by
    cases hf : (runCommand sys "go"
        (["test"] ++ argv ++ ["-cover", "-coverprofile=coverage.out"]) w).2.files "coverage.out" with
    | error err =>
      rw [Uncovered_unreadable _ _ err hf] at hunc
      cases hunc
    | ok content =>
      intro l hl
      exact ((hshape _ _ content u hf hunc).1 l hl).2
  have hjoin := lineCount_Join u hfree hne
  have hhead : List.count '\n' "Uncovered lines found:\n".data = 1 := by decide
  have hnl : List.count '\n' "\n".data = 1 := by decide
  unfold lineCount at hjoin ⊢
  simp only [String.data_append, List.count_append, hhead, hnl]
  omega

theorem C18_result_shape_witness :
    ∃ listing : String,
      (CovTest (fakeGo "mode: set\na.go:1.1,2.2 1 1\nb.go:1.1,2.2 1 2\n" 0) [] emptyWorld).2.stderr
        = (runCommand (fakeGo "mode: set\na.go:1.1,2.2 1 1\nb.go:1.1,2.2 1 2\n" 0) "go"
            (["test"] ++ [] ++ ["-cover", "-coverprofile=coverage.out"]) emptyWorld).2.stderr
          ++ listing ∧
      listing = "Uncovered lines found:\n"
        ++ Join ["a.go:1.1,2.2 1 1", "b.go:1.1,2.2 1 2"] "\n" ++ "\n" ∧
      lineCount listing = 1 + ["a.go:1.1,2.2 1 1", "b.go:1.1,2.2 1 2"].length :=
  C18_result_shape.2 (fakeGo "mode: set\na.go:1.1,2.2 1 1\nb.go:1.1,2.2 1 2\n" 0) [] emptyWorld
    ["a.go:1.1,2.2 1 1", "b.go:1.1,2.2 1 2"] rfl rfl (by decide)

end GoScov
